import Mathlib

/-!
Verification of the notes HTTP service (two near-duplicate variants:
`Lab_5.js` and the swagger-annotated variant).  The store is a single
file holding a JSON array of `{name, text}` objects; every handler reads
the whole file and, for mutations, rewrites it.  We embed the file
content, the request handlers, and the spec-level cumulative-effect
model, and prove the claimed properties.
-/

namespace NotesService

/-- A note: a `name`/`text` pair, the sole persisted entity. -/
structure Note where
  name : String
  text : String
deriving DecidableEq, Repr

/-- The content of the store file as seen by a handler's read:
either it parses (via `JSON.parse`) as an array of notes, or it is
readable but malformed (the parse throws), or the read itself fails
(`fs.promises.readFile` rejects). -/
inductive StoreFile where
  | json (notes : List Note)
  | malformed (raw : String)
  | unreadable
deriving DecidableEq, Repr

/-- `JSON.parse` of the store content, as used by the by-name handlers:
succeeds exactly when the file is readable and holds a JSON array of
notes.  A failed read and a failed parse both land in the handler's
`.catch`, so both are `none` here. -/
def parseStore : StoreFile → Option (List Note)
  | .json notes => some notes
  | _ => none

/-- Body of an HTTP response: empty (`res.end()`), a text payload
(`res.send(string)`), or the raw file content forwarded byte-for-byte
(`res.send(notes)` in the list handler, which never parses). -/
inductive RespBody where
  | empty
  | text (s : String)
  | fileContent (f : StoreFile)
deriving DecidableEq, Repr

/-- An HTTP response: status code and body. -/
structure Response where
  status : Nat
  body : RespBody
deriving DecidableEq, Repr

/-- The `.catch(() => res.status(500).send("Internal server error"))` response. -/
def internalErr : Response := ⟨500, .text "Internal server error"⟩

/-- Result of running one handler: the store file content afterwards
(unchanged when no write is performed) and the list of responses the
handler resolves, in order.  A correct handler resolves exactly one. -/
structure HandlerResult where
  newFile : StoreFile
  responses : List Response
deriving DecidableEq, Repr

/-- `GET /notes` in the swagger variant (part_000 lines 71-77): sends the
raw file content with status 200 and type json, without parsing it; only a
failed read reaches the `.catch` and yields 500.  (Lab_5.js lines 102-107
is identical except that it has no `.catch`, so its unreadable branch
would resolve no response; the two variants agree whenever the file is
readable, which is the only case the theorems below evaluate.) -/
def getNotes (file : StoreFile) : HandlerResult :=
  match file with
  | .unreadable => ⟨.unreadable, [internalErr]⟩
  | f => ⟨f, [⟨200, .fileContent f⟩]⟩

/-- `GET /notes/:name` (part_000 lines 99-111): parses the store, takes
`notes.find(el => el.name === name)`; found sends the note's text with
200 and type text, otherwise 404; a read/parse failure yields 500. -/
def getNote (file : StoreFile) (name : String) : HandlerResult :=
  match parseStore file with
  | none => ⟨file, [internalErr]⟩
  | some notes =>
    match notes.find? (fun el => el.name == name) with
    | some note => ⟨file, [⟨200, .text note.text⟩]⟩
    | none => ⟨file, [⟨404, .empty⟩]⟩

/-- `notes.find(el => el.name === name)` followed by `note.text = body`:
in-place text replacement of the first note whose name matches, as the
swagger variant's PUT handler performs it. -/
def replaceFirst (name body : String) : List Note → List Note
  | [] => []
  | el :: rest =>
    if el.name == name then ⟨el.name, body⟩ :: rest
    else el :: replaceFirst name body rest

/-- `PUT /notes/:name` (part_000 lines 140-155): parses the store; if a
note with the given name exists, replaces that note's text with the raw
request body, rewrites the store and responds 201 after the write;
otherwise responds 404; read/parse failure yields 500. -/
def putNote (file : StoreFile) (name body : String) : HandlerResult :=
  match parseStore file with
  | none => ⟨file, [internalErr]⟩
  | some notes =>
    match notes.find? (fun el => el.name == name) with
    | some _ => ⟨.json (replaceFirst name body notes), [⟨201, .empty⟩]⟩
    | none => ⟨file, [⟨404, .empty⟩]⟩

/-- `POST /write` (part_000 lines 184-199): parses the store; if
`notes.some(el => el.name === note_name)` it responds 400 without
writing; otherwise it pushes `{name: note_name, text: note}` at the end,
rewrites the store, and responds 201 after the write; read/parse failure
yields 500. -/
def postWrite (file : StoreFile) (note_name note : String) : HandlerResult :=
  match parseStore file with
  | none => ⟨file, [internalErr]⟩
  | some notes =>
    if notes.any (fun el => el.name == note_name) then
      ⟨file, [⟨400, .empty⟩]⟩
    else
      ⟨.json (notes ++ [⟨note_name, note⟩]), [⟨201, .empty⟩]⟩

/-- `DELETE /notes/:name` (part_000 lines 221-235): parses the store,
filters out every note whose name matches; if the filtered length
differs from the original it rewrites the store and responds 200,
otherwise 404 without writing; read/parse failure yields 500.
(Lab_5.js lines 80-100 computes the same filter with a forEach/flag.) -/
def deleteNote (file : StoreFile) (name : String) : HandlerResult :=
  match parseStore file with
  | none => ⟨file, [internalErr]⟩
  | some notes =>
    let filteredNotes := notes.filter (fun el => el.name != name)
    if notes.length ≠ filteredNotes.length then
      ⟨.json filteredNotes, [⟨200, .empty⟩]⟩
    else
      ⟨file, [⟨404, .empty⟩]⟩

/-- The loop body of Lab_5.js's PUT handler (lines 45-51): for each index
whose note matches, it mutates that note's text, rewrites the store and
resolves a 201 response; returns the final array together with the 201
responses resolved inside the loop. -/
def lab5PutLoop (name body : String) : List Note → List Note × List Response
  | [] => ([], [])
  | el :: rest =>
    let r := lab5PutLoop name body rest
    if el.name == name then (⟨el.name, body⟩ :: r.1, ⟨201, .empty⟩ :: r.2)
    else (el :: r.1, r.2)

/-- `PUT /notes/:name` in Lab_5.js (lines 41-54): after the loop it
unconditionally runs `res.status(404).end()`, so every request resolves
the 404 response in addition to any 201s resolved inside the loop.  The
last write inside the loop determines the final file content; with no
match no write happens.  There is no `.catch`: a read/parse failure
resolves no response at all. -/
def lab5PutNote (file : StoreFile) (name body : String) : HandlerResult :=
  match parseStore file with
  | none => ⟨file, []⟩
  | some notes =>
    let r := lab5PutLoop name body notes
    ⟨if r.2.isEmpty then file else .json r.1, r.2 ++ [⟨404, .empty⟩]⟩

/-- The `notes.map(el => {...})` body of Lab_5.js's GET /notes/:name
(lines 32-36): for each note whose name matches, it resolves a 200
response carrying that note's text. -/
def lab5GetLoop (name : String) : List Note → List Response
  | [] => []
  | el :: rest =>
    if el.name == name then ⟨200, .text el.text⟩ :: lab5GetLoop name rest
    else lab5GetLoop name rest

/-- `GET /notes/:name` in Lab_5.js (lines 28-39): after the map it
unconditionally runs `res.status(404).end()`, so every request that
parses resolves the 404 in addition to any 200s resolved inside the map.
There is no `.catch`: a read/parse failure resolves no response at all. -/
def lab5GetNote (file : StoreFile) (name : String) : HandlerResult :=
  match parseStore file with
  | none => ⟨file, []⟩
  | some notes => ⟨file, lab5GetLoop name notes ++ [⟨404, .empty⟩]⟩

/-- `POST /write` in Lab_5.js (lines 56-77): same map/flag existence scan,
append, write and 400/201 responses as the swagger variant, but with no
`.catch`: a read/parse failure resolves no response at all. -/
def lab5PostWrite (file : StoreFile) (note_name note : String) : HandlerResult :=
  match parseStore file with
  | none => ⟨file, []⟩
  | some notes =>
    if notes.any (fun el => el.name == note_name) then
      ⟨file, [⟨400, .empty⟩]⟩
    else
      ⟨.json (notes ++ [⟨note_name, note⟩]), [⟨201, .empty⟩]⟩

/-- `DELETE /notes/:name` in Lab_5.js (lines 80-100): a forEach with a
flag builds new_notes holding exactly the non-matching notes (the same
filter as the swagger variant); when the flag is set it writes new_notes
and responds 200, otherwise 404; no `.catch`, so a read/parse failure
resolves no response at all. -/
def lab5DeleteNote (file : StoreFile) (name : String) : HandlerResult :=
  match parseStore file with
  | none => ⟨file, []⟩
  | some notes =>
    let new_notes := notes.filter (fun el => el.name != name)
    if notes.any (fun el => el.name == name) then
      ⟨.json new_notes, [⟨200, .empty⟩]⟩
    else
      ⟨file, [⟨404, .empty⟩]⟩

/-- The notes recorded in the store file (empty unless it parses). -/
def fileNotes (file : StoreFile) : List Note :=
  match parseStore file with
  | some notes => notes
  | none => []

/-- A mutating request, with its parameters. -/
inductive Op where
  | create (note_name note : String)
  | update (name body : String)
  | delete (name : String)
deriving DecidableEq, Repr

/-- The effect of one mutating request on the store file, as the handlers
compute it. -/
def applyOp (file : StoreFile) : Op → StoreFile
  | .create n t => (postWrite file n t).newFile
  | .update n b => (putNote file n b).newFile
  | .delete n => (deleteNote file n).newFile

/-- The store file after a sequence of mutating requests executed
one after the other, starting from the empty store `[]`. -/
def execOps (ops : List Op) : StoreFile :=
  ops.foldl applyOp (.json [])

/-- Modelled from the spec: the cumulative effect of one operation on the
ordered note sequence — a create appends at the end (and is refused when
the name is present), an update keeps every note's position and replaces
the named note's text, a delete removes the named notes and keeps the
survivors in order. -/
def specApply (notes : List Note) : Op → List Note
  | .create n t =>
    if notes.any (fun el => el.name == n) then notes else notes ++ [⟨n, t⟩]
  | .update n b =>
    notes.map (fun el => if el.name == n then ⟨el.name, b⟩ else el)
  | .delete n => notes.filter (fun el => el.name != n)

/-- Modelled from the spec: cumulative effect of an operation sequence on
an initially empty store. -/
def specExec (ops : List Op) : List Note :=
  ops.foldl specApply []

/-! ## Helper lemmas -/

lemma parseStore_some {file : StoreFile} {notes : List Note}
    (h : parseStore file = some notes) : file = .json notes := by
  cases file <;> simp_all [parseStore]

lemma deleteNote_newFile (notes : List Note) (n : String) :
    (deleteNote (.json notes) n).newFile =
      .json (notes.filter (fun el => el.name != n)) := by
  by_cases hlen : notes.length = (notes.filter (fun el => el.name != n)).length
  · have hself : notes.filter (fun el => el.name != n) = notes :=
      (List.filter_sublist notes).eq_of_length hlen.symm
    simp [deleteNote, parseStore, hlen, hself]
  · simp [deleteNote, parseStore, hlen]

lemma filter_ne_length {notes : List Note} {n : String}
    (hnd : (notes.map Note.name).Nodup) (hmem : n ∈ notes.map Note.name) :
    (notes.filter (fun el => el.name != n)).length + 1 = notes.length := by
  induction notes with
  | nil => simp at hmem
  | cons a l ih =>
    rw [List.map_cons, List.nodup_cons] at hnd
    rw [List.map_cons, List.mem_cons] at hmem
    rcases hmem with h1 | h2
    · have ha : (a.name != n) = false := by simp [h1]
      have hrest : l.filter (fun el => el.name != n) = l := by
        rw [List.filter_eq_self]
        intro el hel
        simp only [bne_iff_ne, ne_eq]
        intro hc
        exact hnd.1 (h1 ▸ hc ▸ List.mem_map_of_mem Note.name hel)
      simp [List.filter_cons, ha, hrest]
    · have hne : a.name ≠ n := fun he => hnd.1 (he ▸ h2)
      have ha : (a.name != n) = true := by simp [hne]
      have hrec := ih hnd.2 h2
      simp only [List.filter_cons, ha, if_true, List.length_cons]
      omega

lemma map_update_of_absent {l : List Note} {n b : String}
    (h : ∀ el ∈ l, el.name ≠ n) :
    l.map (fun el => if el.name == n then ⟨el.name, b⟩ else el) = l := by
  induction l with
  | nil => rfl
  | cons a t ih =>
    have ha : (a.name == n) = false := by simpa using h a (by simp)
    have ht : ∀ el ∈ t, el.name ≠ n := fun el hel => h el (List.mem_cons_of_mem a hel)
    have hcond : ¬ ((a.name == n) = true) := by simp [ha]
    simp only [List.map_cons, if_neg hcond, ih ht]

lemma replaceFirst_eq_map {l : List Note} (n b : String)
    (hnd : (l.map Note.name).Nodup) :
    replaceFirst n b l =
      l.map (fun el => if el.name == n then ⟨el.name, b⟩ else el) := by
  induction l with
  | nil => rfl
  | cons a t ih =>
    rw [List.map_cons, List.nodup_cons] at hnd
    by_cases ha : a.name = n
    · have hcond : (a.name == n) = true := by simp [ha]
      have habs : ∀ el ∈ t, el.name ≠ n := by
        intro el hel he
        have hm : el.name ∈ List.map Note.name t := List.mem_map_of_mem Note.name hel
        rw [he, ← ha] at hm
        exact hnd.1 hm
      simp only [replaceFirst, List.map_cons, if_pos hcond,
        map_update_of_absent habs]
    · have hcond : ¬ ((a.name == n) = true) := by simp [ha]
      simp only [replaceFirst, List.map_cons, if_neg hcond, ih hnd.2]

lemma specApply_update_names (l : List Note) (n b : String) :
    (specApply l (.update n b)).map Note.name = l.map Note.name := by
  simp only [specApply, List.map_map]
  apply List.map_congr_left
  intro a _
  by_cases h : a.name = n
  · simp [Function.comp, h]
  · simp [Function.comp, h]

lemma applyOp_step (notes : List Note) (op : Op)
    (hnd : (notes.map Note.name).Nodup) :
    applyOp (.json notes) op = .json (specApply notes op) ∧
    ((specApply notes op).map Note.name).Nodup := by
  cases op with
  | create n t =>
    by_cases hany : notes.any (fun el => el.name == n) = true
    · constructor
      · simp [applyOp, postWrite, parseStore, hany, specApply]
      · simpa [specApply, hany] using hnd
    · have hany' : notes.any (fun el => el.name == n) = false :=
        Bool.eq_false_iff.mpr hany
      have hnotmem : n ∉ notes.map Note.name := by
        rw [List.any_eq_false] at hany'
        intro hmem
        rcases List.mem_map.mp hmem with ⟨el, hel, he⟩
        exact (by simpa using hany' el hel : el.name ≠ n) he
      constructor
      · simp [applyOp, postWrite, parseStore, hany', specApply]
      · simp only [specApply, hany', Bool.false_eq_true, if_false,
          List.map_append, List.map_cons, List.map_nil]
        rw [List.nodup_append]
        exact ⟨hnd, List.nodup_singleton n, by simpa using hnotmem⟩
  | update n b =>
    constructor
    · cases hfind : notes.find? (fun el => el.name == n) with
      | some note =>
        simp [applyOp, putNote, parseStore, hfind, specApply,
          replaceFirst_eq_map n b hnd]
      | none =>
        have habs : ∀ el ∈ notes, el.name ≠ n := by
          rw [List.find?_eq_none] at hfind
          intro el hel
          simpa using hfind el hel
        simp only [applyOp, putNote, parseStore, hfind, specApply]
        rw [map_update_of_absent habs]
    · rw [specApply_update_names]
      exact hnd
  | delete n =>
    constructor
    · simp [applyOp, deleteNote_newFile, specApply]
    · have hsub : List.Sublist
          ((notes.filter (fun el => el.name != n)).map Note.name)
          (notes.map Note.name) :=
        (List.filter_sublist notes).map Note.name
      exact hnd.sublist hsub

lemma foldl_exec (ops : List Op) :
    ∀ notes, (notes.map Note.name).Nodup →
      List.foldl applyOp (.json notes) ops =
        .json (List.foldl specApply notes ops) ∧
      ((List.foldl specApply notes ops).map Note.name).Nodup := by
  induction ops with
  | nil => exact fun notes h => ⟨rfl, h⟩
  | cons op rest ih =>
    intro notes h
    have step := applyOp_step notes op h
    rw [List.foldl_cons, List.foldl_cons, step.1]
    exact ih _ step.2

end NotesService

namespace NotesService

/-! ## Claim theorems -/

/-- C3: for POST /write with fields note_name and note, if some note in the
store already has that name the handler responds 400 and leaves the store
unchanged; otherwise it appends the new note at the end, rewrites the
store, and responds 201. -/
theorem postWrite_spec (file : StoreFile) (notes : List Note) (n t : String)
    (h : parseStore file = some notes) :
    (notes.any (fun el => el.name == n) = true →
      postWrite file n t = ⟨file, [⟨400, .empty⟩]⟩) ∧
    (notes.any (fun el => el.name == n) = false →
      postWrite file n t = ⟨.json (notes ++ [⟨n, t⟩]), [⟨201, .empty⟩]⟩) := by
  have hf := parseStore_some h
  subst hf
  constructor <;> intro hcase <;> simp [postWrite, parseStore, hcase]

/-- Witness for C3: on store [{a,x}], creating a again yields 400 without
a write. -/
theorem postWrite_spec_witness :
    postWrite (.json [⟨"a", "x"⟩]) "a" "y" =
      ⟨.json [⟨"a", "x"⟩], [⟨400, .empty⟩]⟩ :=
  (postWrite_spec (.json [⟨"a", "x"⟩]) [⟨"a", "x"⟩] "a" "y" rfl).1 (by decide)

/-- C6: DELETE /notes/:n when no note has name n responds 404 and performs
no write: the store file content is exactly what it was. -/
theorem deleteNote_absent (file : StoreFile) (notes : List Note) (n : String)
    (h : parseStore file = some notes) (habs : ∀ el ∈ notes, el.name ≠ n) :
    deleteNote file n = ⟨file, [⟨404, .empty⟩]⟩ := by
  have hf := parseStore_some h
  subst hf
  have hfilter : notes.filter (fun el => el.name != n) = notes := by
    rw [List.filter_eq_self]
    intro el hel
    simpa using habs el hel
  simp [deleteNote, parseStore, hfilter]

/-- Witness for C6: deleting the absent name c from [{a,x}] returns 404 and
leaves the file untouched. -/
theorem deleteNote_absent_witness :
    deleteNote (.json [⟨"a", "x"⟩]) "c" =
      ⟨.json [⟨"a", "x"⟩], [⟨404, .empty⟩]⟩ :=
  deleteNote_absent (.json [⟨"a", "x"⟩]) [⟨"a", "x"⟩] "c" rfl (by decide)

/-- C7: creating a note with a fresh name n and text t and then fetching
/notes/:n responds 200 with body exactly t. -/
theorem create_then_get (file : StoreFile) (notes : List Note) (n t : String)
    (h : parseStore file = some notes) (habs : ∀ el ∈ notes, el.name ≠ n) :
    getNote (postWrite file n t).newFile n =
      ⟨(postWrite file n t).newFile, [⟨200, .text t⟩]⟩ := by
  have hf := parseStore_some h
  subst hf
  have hany : notes.any (fun el => el.name == n) = false := by
    rw [List.any_eq_false]
    intro el hel
    simpa using habs el hel
  have hnew : (postWrite (.json notes) n t).newFile = .json (notes ++ [⟨n, t⟩]) := by
    simp [postWrite, parseStore, hany]
  have hnone : notes.find? (fun el => el.name == n) = none := by
    rw [List.find?_eq_none]
    intro x hx
    simpa using habs x hx
  rw [hnew]
  simp [getNote, parseStore, List.find?_append, hnone, List.find?]

/-- Witness for C7: creating b with text 2 on store [{a,1}] then fetching b
yields 200 with body 2. -/
theorem create_then_get_witness :
    getNote (postWrite (.json [⟨"a", "1"⟩]) "b" "2").newFile "b" =
      ⟨(postWrite (.json [⟨"a", "1"⟩]) "b" "2").newFile, [⟨200, .text "2"⟩]⟩ :=
  create_then_get (.json [⟨"a", "1"⟩]) [⟨"a", "1"⟩] "b" "2" rfl (by decide)

/-- C10: DELETE /notes/:n removes every note whose name equals n, even when
several notes share that name: the resulting store contains no note
named n. -/
theorem deleteNote_removes_all (notes : List Note) (n : String) :
    ∀ el ∈ fileNotes (deleteNote (.json notes) n).newFile, el.name ≠ n := by
  intro el hel
  rw [deleteNote_newFile] at hel
  simp only [fileNotes, parseStore] at hel
  have := List.of_mem_filter hel
  simpa using this

/-- Witness for C10: deleting a from a store holding two notes named a and
one named b leaves a store whose member {b,3} indeed has name other than
a. -/
theorem deleteNote_removes_all_witness :
    (⟨"b", "3"⟩ : Note).name ≠ "a" :=
  deleteNote_removes_all [⟨"a", "1"⟩, ⟨"a", "2"⟩, ⟨"b", "3"⟩] "a"
    ⟨"b", "3"⟩ (by decide)

/-- C5: Lab_5.js's GET /notes/:name (lines 28-39) violates the claimed
contract: with an unparseable store it resolves no response at all where
the claim requires 500 (the handler installs no catch), and on a matched
name it resolves the unconditional 404 after the 200.  The swagger
variant implements the claimed contract, so the claim is the intent and
Lab_5.js is the slip. -/
theorem lab5GetNote_bug :
    (lab5GetNote (.malformed "oops") "a").responses = [] ∧
    lab5GetNote (.json [⟨"a", "x"⟩]) "a" =
      ⟨.json [⟨"a", "x"⟩], [⟨200, .text "x"⟩, ⟨404, .empty⟩]⟩ := by
  constructor
  · rfl
  · decide

/-- C2 counterexample: on a store file whose content is not valid JSON, the
list endpoint GET /notes does not surface 500: it never parses and
responds 200 with the raw content. -/
theorem getNotes_malformed_counterexample :
    (getNotes (.malformed "oops")).responses.map Response.status = [200] ∧
    (getNotes (.malformed "oops")).responses.map Response.status ≠ [500] := by
  constructor
  · rfl
  · decide

/-- C2 amended: on a store file whose content fails the JSON parse, each
handler that parses the store (get-by-name, update, create, delete)
fails: in the swagger variant the failure surfaces as 500 through the
catch, while in Lab_5.js, which installs no catch, the request resolves
no response at all; the list endpoint GET /notes never parses the file
and, on a readable but malformed file, responds 200 forwarding the raw
content in both variants. -/
theorem parse_failure_behavior (file : StoreFile) (n b t : String)
    (h : parseStore file = none) :
    (getNote file n).responses = [internalErr] ∧
    (putNote file n b).responses = [internalErr] ∧
    (postWrite file n t).responses = [internalErr] ∧
    (deleteNote file n).responses = [internalErr] ∧
    (lab5GetNote file n).responses = [] ∧
    (lab5PutNote file n b).responses = [] ∧
    (lab5PostWrite file n t).responses = [] ∧
    (lab5DeleteNote file n).responses = [] ∧
    (∀ s, file = .malformed s →
      (getNotes file).responses = [⟨200, .fileContent file⟩]) := by
  refine ⟨?_, ?_, ?_, ?_, ?_, ?_, ?_, ?_, ?_⟩
  · simp [getNote, h]
  · simp [putNote, h]
  · simp [postWrite, h]
  · simp [deleteNote, h]
  · simp [lab5GetNote, h]
  · simp [lab5PutNote, h]
  · simp [lab5PostWrite, h]
  · simp [lab5DeleteNote, h]
  · intro s hs
    subst hs
    simp [getNotes]

/-- Witness for C2 amended: instantiated on the malformed content oops. -/
theorem parse_failure_behavior_witness :
    (getNote (.malformed "oops") "a").responses = [internalErr] ∧
    (putNote (.malformed "oops") "a" "b").responses = [internalErr] ∧
    (postWrite (.malformed "oops") "a" "c").responses = [internalErr] ∧
    (deleteNote (.malformed "oops") "a").responses = [internalErr] ∧
    (lab5GetNote (.malformed "oops") "a").responses = [] ∧
    (lab5PutNote (.malformed "oops") "a" "b").responses = [] ∧
    (lab5PostWrite (.malformed "oops") "a" "c").responses = [] ∧
    (lab5DeleteNote (.malformed "oops") "a").responses = [] ∧
    (getNotes (.malformed "oops")).responses =
      [⟨200, .fileContent (.malformed "oops")⟩] := by
  have h := parse_failure_behavior (.malformed "oops") "a" "b" "c" rfl
  exact ⟨h.1, h.2.1, h.2.2.1, h.2.2.2.1, h.2.2.2.2.1, h.2.2.2.2.2.1,
    h.2.2.2.2.2.2.1, h.2.2.2.2.2.2.2.1, h.2.2.2.2.2.2.2.2 "oops" rfl⟩

/-- C4: on a store with pairwise-distinct names containing a note named n,
DELETE /notes/:n responds 200, the store length drops by exactly one, and
a subsequent GET /notes/:n responds 404. -/
theorem deleteNote_present (file : StoreFile) (notes : List Note) (n : String)
    (h : parseStore file = some notes) (hnd : (notes.map Note.name).Nodup)
    (hmem : n ∈ notes.map Note.name) :
    (deleteNote file n).responses = [⟨200, .empty⟩] ∧
    (fileNotes (deleteNote file n).newFile).length + 1 = notes.length ∧
    (getNote (deleteNote file n).newFile n).responses = [⟨404, .empty⟩] := by
  have hf := parseStore_some h
  subst hf
  have hlen := filter_ne_length hnd hmem
  have hne : notes.length ≠ (notes.filter (fun el => el.name != n)).length := by
    omega
  refine ⟨?_, ?_, ?_⟩
  · simp [deleteNote, parseStore, hne]
  · rw [deleteNote_newFile]
    simpa [fileNotes, parseStore] using hlen
  · rw [deleteNote_newFile]
    have hnone : (notes.filter (fun el => el.name != n)).find?
        (fun el => el.name == n) = none := by
      rw [List.find?_eq_none]
      intro x hx
      simpa using List.of_mem_filter hx
    simp [getNote, parseStore, hnone]

/-- Witness for C4: deleting a from [{a,1}, {b,2}] responds 200, leaves one
note, and a subsequent fetch of a responds 404. -/
theorem deleteNote_present_witness :
    (deleteNote (.json [⟨"a", "1"⟩, ⟨"b", "2"⟩]) "a").responses =
      [⟨200, .empty⟩] ∧
    (fileNotes (deleteNote (.json [⟨"a", "1"⟩, ⟨"b", "2"⟩]) "a").newFile).length
      + 1 = 2 ∧
    (getNote (deleteNote (.json [⟨"a", "1"⟩, ⟨"b", "2"⟩]) "a").newFile
      "a").responses = [⟨404, .empty⟩] :=
  deleteNote_present (.json [⟨"a", "1"⟩, ⟨"b", "2"⟩]) [⟨"a", "1"⟩, ⟨"b", "2"⟩]
    "a" rfl (by decide) (by decide)

/-- C8: after any sequence of create/update/delete operations on an
initially empty store, the store file holds exactly the spec-level
cumulative effect (creates append at the end, updates keep positions,
deletes keep survivor order), and GET /notes returns that array with
status 200. -/
theorem execOps_matches_spec (ops : List Op) :
    execOps ops = .json (specExec ops) ∧
    (getNotes (execOps ops)).responses =
      [⟨200, .fileContent (.json (specExec ops))⟩] := by
  have h := foldl_exec ops [] (by simp)
  have h1 : execOps ops = .json (specExec ops) := h.1
  refine ⟨h1, ?_⟩
  rw [h1]
  simp [getNotes]

/-- C9: every store reachable from the empty store by sequential create,
update, and delete requests has pairwise-distinct note names. -/
theorem execOps_names_nodup (ops : List Op) :
    ((fileNotes (execOps ops)).map Note.name).Nodup := by
  have h := foldl_exec ops [] (by simp)
  have h1 : execOps ops = .json (specExec ops) := h.1
  rw [h1]
  simpa [fileNotes, parseStore] using h.2

/-- C1: on a store holding a note named a, Lab_5.js's PUT /notes/a updates
the text and rewrites the store, but resolves the response twice: the 201
inside the loop and the unconditional 404 after it, contradicting the
requirement that the handler resolve the response exactly once. -/
theorem lab5PutNote_double_response :
    lab5PutNote (.json [⟨"a", "x"⟩]) "a" "y" =
      ⟨.json [⟨"a", "y"⟩], [⟨201, .empty⟩, ⟨404, .empty⟩]⟩ ∧
    (lab5PutNote (.json [⟨"a", "x"⟩]) "a" "y").responses.length ≠ 1 := by
  constructor
  · decide
  · decide

end NotesService
